import Mathlib

/-!
Verification development for the MIScnn neural-network pipeline driver
(miscnn/neural_network/model.py).  The Python class Neural_Network is
shallowly embedded: external collaborators (Keras model inference and
fitting, patch concatenation, disk output, file reads) are abstracted as an
environment of fallible functions, and every observable call the driver
makes (data-generator construction, shape-cache pop, patch concatenation,
discretization, post-processing, output emission, batch cleanup) is
recorded in an event trace so that ordering and occurrence properties can
be stated and proved.
-/

set_option autoImplicit false

namespace MIScnn

/-- Weights of the Keras model, abstracted as a list of integers. -/
abbrev Weights := List Int

/-- Shape of a volume: ordered list of spatial extents. -/
abbrev Shape := List Nat

/-- Per-class score volume: a list of voxels, each holding per-class scores.
Scores are modelled as rationals. -/
abbrev ScoreVol := List (List ℚ)

/-- Discrete label volume: one class index per voxel. -/
abbrev LabelVol := List Nat

/-- Errors that can surface from a pipeline stage (fetch/inference failure,
missing shape-cache key as raised by dict.pop, concatenation failure,
save failure, fit failure). -/
inductive PErr where
  | inferErr
  | keyErr
  | concatErr
  | saveErr
  | fitErr
  deriving DecidableEq, Repr

/-- Observable calls made by the Neural_Network driver, recorded in order. -/
inductive Event where
  | mkDataGen (samples : List Nat) (training : Bool) (validation : Bool) (shuffle : Bool)
  | inferCall (sample : Nat)
  | fitCall (samples : List Nat)
  | popShape (sample : Nat) (result : Option Shape)
  | concatCall (sample : Nat) (imageSize : Shape) (window : Shape) (overlap : Shape)
  | discretizeEv (sample : Nat)
  | postProcEv (sample : Nat) (idx : Nat)
  | emitReturn (sample : Nat)
  | emitSave (sample : Nat)
  | cleanup
  deriving DecidableEq, Repr

/-- Keras model: structural descriptor (JSON string) plus parameter blob. -/
structure KModel where
  arch : String
  weights : Weights
  deriving DecidableEq, Repr

/-- Architecture collaborator: create_model_3D / create_model_2D build a
fresh Keras model from channel and class counts. -/
structure Architecture where
  create_model_3D : Nat → Nat → KModel
  create_model_2D : Nat → Nat → KModel

/-- Preprocessor state visible to the Neural_Network driver: analysis mode
string, patch window and overlap configuration, caching flags, the
sample-keyed shape cache, and the registered subfunctions (only their
postprocessing action matters here). -/
structure Preprocessor where
  three_dim : Bool
  channels : Nat
  classes : Nat
  analysis : String
  patch_shape : Shape
  patchwise_grid_overlap : Shape
  prepare_batches : Bool
  prepare_subfunctions : Bool
  shape_cache : List (Nat × Shape)
  subfunctions : List (LabelVol → LabelVol)

/-- Environment of external collaborators: per-sample inference
(DataGenerator plus predict_generator), patch concatenation
(concat_3Dmatrices), prediction saving, model fitting, and file reading for
load. -/
structure Env where
  infer : Nat → Except PErr ScoreVol
  concat : ScoreVol → Shape → Shape → Shape → Except PErr ScoreVol
  save : LabelVol → Nat → Except PErr Unit
  fit : List Nat → Weights → Except PErr Weights
  fitEval : List Nat → List Nat → Weights → Except PErr (Weights × Nat)
  readFile : String → String
  model_from_json : String → String
  load_weights : String → Weights

/-- State of a Neural_Network instance: the compiled Keras model, the
weights cached at construction time for reinitialization, and the cached
constructor parameters. -/
structure Neural_Network where
  model : KModel
  initialization_weights : Weights
  preprocessor : Preprocessor
  loss : Nat
  metrics : List Nat
  epochs : Nat
  learninig_rate : ℚ
  batch_queue_size : Nat
  shuffle_batches : Bool

/-- Construction-time errors named by the specification.  The constructor
in model.py performs no overlap validation, so the embedding can only ever
return ok; the error type exists so that absence of the check is statable. -/
inductive InitErr where
  | invalidOverlap
  deriving DecidableEq, Repr

/-- Embeds Neural_Network.__init__: pick the 2D or 3D architecture from the
data parameters of the preprocessor, cache the starting weights, and store the
constructor parameters.  The source performs no validation of the patch
window or overlap. -/
def Neural_Network.init (architecture : Architecture) (preprocessor : Preprocessor)
    (loss : Nat) (metrics : List Nat) (epochs : Nat) (learninig_rate : ℚ)
    (batch_queue_size : Nat) (gpu_number : Nat) : Except InitErr Neural_Network :=
  let model :=
    if preprocessor.three_dim then
      architecture.create_model_3D preprocessor.channels preprocessor.classes
    else
      architecture.create_model_2D preprocessor.channels preprocessor.classes
  Except.ok
    { model := model
    , initialization_weights := model.weights
    , preprocessor := preprocessor
    , loss := loss
    , metrics := metrics
    , epochs := epochs
    , learninig_rate := learninig_rate
    , batch_queue_size := batch_queue_size
    , shuffle_batches := true }

/-- Modelled from the spec: the Shape Cache pop operation (the shape_cache
container itself is not part of the shown source; per section 4.1 pop
removes and returns the record for a key, and fails when no record
exists, as Python dict.pop raises KeyError).  Returns the stored shape and
the cache with that entry removed. -/
def cachePop (cache : List (Nat × Shape)) (key : Nat) : Option (Shape × List (Nat × Shape)) :=
  match cache with
  | [] => none
  | (k, v) :: rest =>
    if k = key then some (v, rest)
    else
      match cachePop rest key with
      | none => none
      | some (shape, rest2) => some (shape, (k, v) :: rest2)

/-- Embeds the patchwise-analysis test on line 148 of model.py. -/
def isPatchwise (pp : Preprocessor) : Bool :=
  pp.analysis == "patchwise-crop" || pp.analysis == "patchwise-grid"

/-- Embeds np.argmax on the per-class score list of a single voxel: index of the
first occurrence of the maximal score (numpy documents that ties return the
first occurrence).  Returns 0 on an empty list. -/
def argmaxIdx : List ℚ → Nat
  | [] => 0
  | x :: xs =>
    match xs with
    | [] => 0
    | _ :: _ =>
      let j := argmaxIdx xs
      if x < xs.getD j 0 then j + 1 else 0

/-- Embeds np.argmax(pred_seg, axis=-1): per-voxel first-max class index. -/
def npArgmaxLast (v : ScoreVol) : LabelVol :=
  v.map argmaxIdx

/-- Embeds the cleanup guard on lines 166-168 (and 118-120, 204-206) of
model.py: batch_cleanup is called exactly when prepare_batches or
prepare_subfunctions is set. -/
def cleanupEvents (pp : Preprocessor) : List Event :=
  if pp.prepare_batches || pp.prepare_subfunctions then [Event.cleanup] else []

/-- Embeds the postprocessing loop on lines 161-162 of model.py: each
postprocessing of each registered subfunction mutates the prediction in place, in
registration order.  Returns the final volume and the per-call events. -/
def runPostprocs (sample : Nat) : List (LabelVol → LabelVol) → Nat → LabelVol →
    LabelVol × List Event
  | [], _, v => (v, [])
  | f :: rest, i, v =>
    let r := runPostprocs sample rest (i + 1) (f v)
    (r.1, Event.postProcEv sample i :: r.2)

/-- Embeds lines 158-168 of model.py for one sample, from the argmax
discretization through postprocessing, output emission and conditional
cleanup. -/
def discretizePhase (env : Env) (pp : Preprocessor) (sample : Nat)
    (direct_output : Bool) (assembled : ScoreVol) :
    Except PErr LabelVol × List Event :=
  let labels := npArgmaxLast assembled
  let r := runPostprocs sample pp.subfunctions 0 labels
  if direct_output then
    (Except.ok r.1, Event.discretizeEv sample :: r.2 ++ [Event.emitReturn sample] ++ cleanupEvents pp)
  else
    match env.save r.1 sample with
    | Except.error e => (Except.error e, Event.discretizeEv sample :: r.2 ++ [Event.emitSave sample])
    | Except.ok _ =>
      (Except.ok r.1, Event.discretizeEv sample :: r.2 ++ [Event.emitSave sample] ++ cleanupEvents pp)

/-- Embeds the loop body of Neural_Network.predict (lines 138-168 of
model.py) for one sample: build a single-sample unshuffled DataGenerator,
run inference, in patchwise analysis pop the cached shape and concatenate
the patches to that shape, then discretize, postprocess, emit, and clean
up.  Any stage failure aborts the body where it occurred. -/
def processSample (env : Env) (pp : Preprocessor) (sample : Nat)
    (direct_output : Bool) : Except PErr LabelVol × Preprocessor × List Event :=
  let ev1 := [Event.mkDataGen [sample] false false false, Event.inferCall sample]
  match env.infer sample with
  | Except.error e => (Except.error e, pp, ev1)
  | Except.ok pred_seg =>
    if isPatchwise pp then
      match cachePop pp.shape_cache sample with
      | none => (Except.error PErr.keyErr, pp, ev1 ++ [Event.popShape sample none])
      | some (seg_shape, cache2) =>
        let pp2 := { pp with shape_cache := cache2 }
        let ev2 := ev1 ++ [Event.popShape sample (some seg_shape),
          Event.concatCall sample seg_shape pp.patch_shape pp.patchwise_grid_overlap]
        match env.concat pred_seg seg_shape pp.patch_shape pp.patchwise_grid_overlap with
        | Except.error e => (Except.error e, pp2, ev2)
        | Except.ok assembled =>
          let r := discretizePhase env pp2 sample direct_output assembled
          (r.1, pp2, ev2 ++ r.2)
    else
      let r := discretizePhase env pp sample direct_output pred_seg
      (r.1, pp, ev1 ++ r.2)

/-- Embeds the sample loop of Neural_Network.predict: samples are processed
sequentially; the first failing sample aborts the run and its error
propagates to the caller. -/
def predictLoop (env : Env) (pp : Preprocessor) (samples : List Nat)
    (direct_output : Bool) : Except PErr (List LabelVol) × Preprocessor × List Event :=
  match samples with
  | [] => (Except.ok [], pp, [])
  | s :: rest =>
    match processSample env pp s direct_output with
    | (Except.error e, pp2, ev) => (Except.error e, pp2, ev)
    | (Except.ok vol, pp2, ev) =>
      match predictLoop env pp2 rest direct_output with
      | (Except.error e, pp3, ev2) => (Except.error e, pp3, ev ++ ev2)
      | (Except.ok vols, pp3, ev2) => (Except.ok (vol :: vols), pp3, ev ++ ev2)

/-- Embeds Neural_Network.predict (lines 134-170 of model.py): iterate the
per-sample pipeline; with direct_output the collected predictions are
returned, otherwise nothing is returned. -/
def Neural_Network.predict (nn : Neural_Network) (env : Env) (samples : List Nat)
    (direct_output : Bool) :
    Except PErr (Option (List LabelVol)) × Neural_Network × List Event :=
  match predictLoop env nn.preprocessor samples direct_output with
  | (Except.error e, pp2, ev) => (Except.error e, { nn with preprocessor := pp2 }, ev)
  | (Except.ok vols, pp2, ev) =>
    (Except.ok (if direct_output then some vols else none),
     { nn with preprocessor := pp2 }, ev)

/-- Embeds Neural_Network.train (lines 110-120 of model.py): build a
shuffled training DataGenerator, fit the model (updating its weights), then
conditionally clean up. -/
def Neural_Network.train (nn : Neural_Network) (env : Env) (sample_list : List Nat) :
    Except PErr Unit × Neural_Network × List Event :=
  let ev1 := [Event.mkDataGen sample_list true false nn.shuffle_batches,
    Event.fitCall sample_list]
  match env.fit sample_list nn.model.weights with
  | Except.error e => (Except.error e, nn, ev1)
  | Except.ok w2 =>
    (Except.ok (), { nn with model := { nn.model with weights := w2 } },
     ev1 ++ cleanupEvents nn.preprocessor)

/-- Embeds Neural_Network.evaluate (lines 188-208 of model.py): build
training and validation DataGenerators, fit with validation (updating the
weights and producing a history), then conditionally clean up. -/
def Neural_Network.evaluate (nn : Neural_Network) (env : Env)
    (training_samples : List Nat) (validation_samples : List Nat) :
    Except PErr Nat × Neural_Network × List Event :=
  let ev1 := [Event.mkDataGen training_samples true false nn.shuffle_batches,
    Event.mkDataGen validation_samples true true nn.shuffle_batches,
    Event.fitCall training_samples]
  match env.fitEval training_samples validation_samples nn.model.weights with
  | Except.error e => (Except.error e, nn, ev1)
  | Except.ok wh =>
    (Except.ok wh.2, { nn with model := { nn.model with weights := wh.1 } },
     ev1 ++ cleanupEvents nn.preprocessor)

/-- Embeds Neural_Network.reset_weights (lines 214-215 of model.py): set
the model weights back to the construction-time cache. -/
def Neural_Network.reset_weights (nn : Neural_Network) : Neural_Network :=
  { nn with model := { nn.model with weights := nn.initialization_weights } }

/-- File operations performed by dump and load, with the artifact written
or read. -/
inductive FileOp where
  | writeJson (path : String) (content : String)
  | writeWeights (path : String) (w : Weights)
  | readJson (path : String)
  | readWeights (path : String)
  deriving DecidableEq, Repr

/-- Path a file operation touches. -/
def FileOp.path : FileOp → String
  | FileOp.writeJson p _ => p
  | FileOp.writeWeights p _ => p
  | FileOp.readJson p => p
  | FileOp.readWeights p => p

/-- Embeds Neural_Network.dump (lines 218-227 of model.py): serialize the
structural descriptor to file_path + ".model.json" and the weights to
file_path + ".weights.h5". -/
def Neural_Network.dump (nn : Neural_Network) (file_path : String) : List FileOp :=
  let outpath_model := file_path ++ ".model.json"
  let outpath_weights := file_path ++ ".weights.h5"
  [FileOp.writeJson outpath_model nn.model.arch,
   FileOp.writeWeights outpath_weights nn.model.weights]

/-- Embeds Neural_Network.load (lines 230-243 of model.py): read the
structural descriptor from file_path + ".model.json" and the weights from
file_path + ".weights.h5", rebuild the model from them, and recompile. -/
def Neural_Network.load (nn : Neural_Network) (env : Env) (file_path : String) :
    Neural_Network × List FileOp :=
  let inpath_model := file_path ++ ".model.json"
  let inpath_weights := file_path ++ ".weights.h5"
  let loaded_model_json := env.readFile inpath_model
  ({ nn with model := { arch := env.model_from_json loaded_model_json,
                        weights := env.load_weights inpath_weights } },
   [FileOp.readJson inpath_model, FileOp.readWeights inpath_weights])

/-- Operations that can be performed on a Neural_Network instance between
construction and a weight reset. -/
inductive Op where
  | trainOp (samples : List Nat)
  | evaluateOp (tr va : List Nat)
  | predictOp (samples : List Nat) (direct : Bool)
  | dumpOp (path : String)
  | loadOp (path : String)
  | resetOp

/-- State effect of one operation on the Neural_Network instance. -/
def runOp (env : Env) (nn : Neural_Network) : Op → Neural_Network
  | Op.trainOp s => (nn.train env s).2.1
  | Op.evaluateOp t v => (nn.evaluate env t v).2.1
  | Op.predictOp s d => (nn.predict env s d).2.1
  | Op.dumpOp _ => nn
  | Op.loadOp p => (nn.load env p).1
  | Op.resetOp => nn.reset_weights

/-- State after a sequence of operations. -/
def runOps (env : Env) (nn : Neural_Network) (ops : List Op) : Neural_Network :=
  ops.foldl (runOp env) nn

/-! Helper definitions for stating trace properties. -/

/-- Tests whether an event is a shape-cache pop. -/
def isPopEvent : Event → Bool
  | Event.popShape _ _ => true
  | _ => false

/-- Tests whether an event is a patch-concatenation call. -/
def isConcatEvent : Event → Bool
  | Event.concatCall _ _ _ _ => true
  | _ => false

/-- Pipeline phase of an event, used for ordering statements: data
fetching and inference first, then reassembly, discretization,
postprocessing, emission, cleanup. -/
def phaseOf : Event → Nat
  | Event.mkDataGen _ _ _ _ => 0
  | Event.inferCall _ => 0
  | Event.fitCall _ => 0
  | Event.popShape _ _ => 1
  | Event.concatCall _ _ _ _ => 1
  | Event.discretizeEv _ => 2
  | Event.postProcEv _ _ => 3
  | Event.emitReturn _ => 4
  | Event.emitSave _ => 4
  | Event.cleanup => 5

/-- Samples handed to the output sink, in call order. -/
def saveEvents (tr : List Event) : List Nat :=
  tr.filterMap fun e =>
    match e with
    | Event.emitSave s => some s
    | _ => none

/-- Samples whose prediction was appended to the in-memory result list, in
call order. -/
def returnEvents (tr : List Event) : List Nat :=
  tr.filterMap fun e =>
    match e with
    | Event.emitReturn s => some s
    | _ => none

/-- Arguments of each DataGenerator construction, in call order. -/
def dataGenEvents (tr : List Event) : List (List Nat × Bool × Bool × Bool) :=
  tr.filterMap fun e =>
    match e with
    | Event.mkDataGen l t v sh => some (l, t, v, sh)
    | _ => none

/-- Sample and registration index of each postprocessing call, in call
order. -/
def postProcEvents (tr : List Event) : List (Nat × Nat) :=
  tr.filterMap fun e =>
    match e with
    | Event.postProcEv s i => some (s, i)
    | _ => none

/-- Model output arriving at the discretization step for one sample: the
raw inference output in non-patchwise analysis, the reassembled volume in
patchwise analysis. -/
def inferAssembled (env : Env) (pp : Preprocessor) (sample : Nat) : Except PErr ScoreVol :=
  match env.infer sample with
  | Except.error e => Except.error e
  | Except.ok pred_seg =>
    if isPatchwise pp then
      match cachePop pp.shape_cache sample with
      | none => Except.error PErr.keyErr
      | some (seg_shape, _) =>
        env.concat pred_seg seg_shape pp.patch_shape pp.patchwise_grid_overlap
    else Except.ok pred_seg

/-! Structural lemmas about the per-sample pipeline. -/

theorem runPostprocs_eq (s : Nat) (sfs : List (LabelVol → LabelVol)) (i : Nat) (v : LabelVol) :
    runPostprocs s sfs i v =
      (sfs.foldl (fun a f => f a) v,
       (List.range sfs.length).map fun k => Event.postProcEv s (i + k)) := by
  induction sfs generalizing i v with
  | nil => simp [runPostprocs]
  | cons f rest ih =>
    simp only [runPostprocs, ih, List.foldl_cons, List.length_cons, List.range_succ_eq_map,
      List.map_cons, List.map_map, Nat.add_zero]
    refine Prod.ext rfl ?_
    refine List.cons_eq_cons.mpr ⟨rfl, ?_⟩
    apply List.map_congr_left
    intro a _
    simp only [Function.comp_apply]
    congr 1
    omega

theorem processSample_infer_error {env : Env} {pp : Preprocessor} {s : Nat} {d : Bool}
    {e : PErr} (h : env.infer s = Except.error e) :
    processSample env pp s d =
      (Except.error e, pp, [Event.mkDataGen [s] false false false, Event.inferCall s]) := by
  simp [processSample, h]

theorem processSample_pop_none {env : Env} {pp : Preprocessor} {s : Nat} {d : Bool}
    {raw : ScoreVol} (h1 : env.infer s = Except.ok raw) (h2 : isPatchwise pp = true)
    (h3 : cachePop pp.shape_cache s = none) :
    processSample env pp s d =
      (Except.error PErr.keyErr, pp,
       [Event.mkDataGen [s] false false false, Event.inferCall s, Event.popShape s none]) := by
  simp [processSample, h1, h2, h3]

theorem processSample_concat_error {env : Env} {pp : Preprocessor} {s : Nat} {d : Bool}
    {raw : ScoreVol} {seg_shape : Shape} {cache2 : List (Nat × Shape)} {e : PErr}
    (h1 : env.infer s = Except.ok raw) (h2 : isPatchwise pp = true)
    (h3 : cachePop pp.shape_cache s = some (seg_shape, cache2))
    (h4 : env.concat raw seg_shape pp.patch_shape pp.patchwise_grid_overlap = Except.error e) :
    processSample env pp s d =
      (Except.error e, { pp with shape_cache := cache2 },
       [Event.mkDataGen [s] false false false, Event.inferCall s,
        Event.popShape s (some seg_shape),
        Event.concatCall s seg_shape pp.patch_shape pp.patchwise_grid_overlap]) := by
  simp [processSample, h1, h2, h3, h4]

theorem processSample_patchwise_ok {env : Env} {pp : Preprocessor} {s : Nat} {d : Bool}
    {raw : ScoreVol} {seg_shape : Shape} {cache2 : List (Nat × Shape)} {asm : ScoreVol}
    (h1 : env.infer s = Except.ok raw) (h2 : isPatchwise pp = true)
    (h3 : cachePop pp.shape_cache s = some (seg_shape, cache2))
    (h4 : env.concat raw seg_shape pp.patch_shape pp.patchwise_grid_overlap = Except.ok asm) :
    processSample env pp s d =
      ((discretizePhase env { pp with shape_cache := cache2 } s d asm).1,
       { pp with shape_cache := cache2 },
       [Event.mkDataGen [s] false false false, Event.inferCall s,
        Event.popShape s (some seg_shape),
        Event.concatCall s seg_shape pp.patch_shape pp.patchwise_grid_overlap] ++
         (discretizePhase env { pp with shape_cache := cache2 } s d asm).2) := by
  simp [processSample, h1, h2, h3, h4]

theorem processSample_nonpatch {env : Env} {pp : Preprocessor} {s : Nat} {d : Bool}
    {raw : ScoreVol} (h1 : env.infer s = Except.ok raw) (h2 : isPatchwise pp = false) :
    processSample env pp s d =
      ((discretizePhase env pp s d raw).1, pp,
       [Event.mkDataGen [s] false false false, Event.inferCall s] ++
         (discretizePhase env pp s d raw).2) := by
  simp [processSample, h1, h2]

theorem discretizePhase_direct (env : Env) (pp : Preprocessor) (s : Nat) (asm : ScoreVol) :
    discretizePhase env pp s true asm =
      (Except.ok (pp.subfunctions.foldl (fun a f => f a) (npArgmaxLast asm)),
       Event.discretizeEv s ::
         ((List.range pp.subfunctions.length).map fun k => Event.postProcEv s k) ++
         [Event.emitReturn s] ++ cleanupEvents pp) := by
  simp [discretizePhase, runPostprocs_eq]

theorem discretizePhase_save_error {env : Env} {pp : Preprocessor} {s : Nat} {asm : ScoreVol}
    {e : PErr}
    (h : env.save (pp.subfunctions.foldl (fun a f => f a) (npArgmaxLast asm)) s =
      Except.error e) :
    discretizePhase env pp s false asm =
      (Except.error e,
       Event.discretizeEv s ::
         ((List.range pp.subfunctions.length).map fun k => Event.postProcEv s k) ++
         [Event.emitSave s]) := by
  simp [discretizePhase, runPostprocs_eq, h]

theorem discretizePhase_save_ok {env : Env} {pp : Preprocessor} {s : Nat} {asm : ScoreVol}
    (h : env.save (pp.subfunctions.foldl (fun a f => f a) (npArgmaxLast asm)) s =
      Except.ok ()) :
    discretizePhase env pp s false asm =
      (Except.ok (pp.subfunctions.foldl (fun a f => f a) (npArgmaxLast asm)),
       Event.discretizeEv s ::
         ((List.range pp.subfunctions.length).map fun k => Event.postProcEv s k) ++
         [Event.emitSave s] ++ cleanupEvents pp) := by
  simp [discretizePhase, runPostprocs_eq, h]

theorem cleanup_notMem_postProcs (s2 n : Nat) :
    Event.cleanup ∉ (List.range n).map fun k => Event.postProcEv s2 k := by
  simp

theorem count_cleanup_cleanupEvents (pp : Preprocessor) :
    (cleanupEvents pp).count Event.cleanup =
      if pp.prepare_batches || pp.prepare_subfunctions then 1 else 0 := by
  unfold cleanupEvents
  split <;> simp_all

theorem count_cleanup_postProcs (s2 n : Nat) :
    ((List.range n).map fun k => Event.postProcEv s2 k).count Event.cleanup = 0 := by
  apply List.count_eq_zero_of_not_mem
  simp

/-! Concrete instances used by witnesses and counterexamples. -/

/-- Environment in which every external collaborator succeeds. -/
def envA : Env :=
  { infer := fun _ => Except.ok [[1, 2], [3, 1]]
  , concat := fun raw _ _ _ => Except.ok raw
  , save := fun _ _ => Except.ok ()
  , fit := fun _ w => Except.ok (0 :: w)
  , fitEval := fun _ _ w => Except.ok (1 :: w, 7)
  , readFile := fun _ => "loaded-json"
  , model_from_json := fun s2 => s2
  , load_weights := fun _ => [9] }

/-- Preprocessor in patchwise-grid mode whose shape cache is empty: the
pop on line 151 of model.py fails for every sample. -/
def ppCx : Preprocessor :=
  { three_dim := false
  , channels := 1
  , classes := 2
  , analysis := "patchwise-grid"
  , patch_shape := [16, 16]
  , patchwise_grid_overlap := [4, 4]
  , prepare_batches := true
  , prepare_subfunctions := false
  , shape_cache := []
  , subfunctions := [] }

/-- Sample and result of each shape-cache pop, in call order. -/
def popEvents (tr : List Event) : List (Nat × Option Shape) :=
  tr.filterMap fun e =>
    match e with
    | Event.popShape s r => some (s, r)
    | _ => none

/-- Arguments of each patch-concatenation call (sample, target image size,
window, overlap), in call order. -/
def concatEvents (tr : List Event) : List (Nat × Shape × Shape × Shape) :=
  tr.filterMap fun e =>
    match e with
    | Event.concatCall s i w o => some (s, i, w, o)
    | _ => none

theorem filterMap_postProcs_none {α : Type} (f : Event → Option α)
    (hf : ∀ a b, f (Event.postProcEv a b) = none) (s2 n : Nat) :
    ((List.range n).map fun k => Event.postProcEv s2 k).filterMap f = [] := by
  rw [List.filterMap_map]
  apply List.filterMap_eq_nil_iff.mpr
  intro a _
  simp [Function.comp, hf]

theorem filterMap_cleanupEvents_none {α : Type} (f : Event → Option α)
    (hf : f Event.cleanup = none) (pp : Preprocessor) :
    (cleanupEvents pp).filterMap f = [] := by
  unfold cleanupEvents
  split <;> simp [hf]

/-- Claim C1 counterexample: in patchwise-grid mode with an empty shape cache
and batch caching active, the shape-cache pop for sample 0 fails, the
error propagates out of the per-sample pipeline, and batch_cleanup is
never invoked — contradicting the claim that Cleanup still runs before the
error propagates. -/
theorem C1_counterexample :
    (processSample envA ppCx 0 false).1 = Except.error PErr.keyErr ∧
    (processSample envA ppCx 0 false).2.1.prepare_batches = true ∧
    Event.cleanup ∉ (processSample envA ppCx 0 false).2.2 := by
  refine ⟨rfl, rfl, ?_⟩
  decide

/-- Claim C1 (amended): failure at any stage of the predict pipeline of a sample
propagates to the caller WITHOUT running the per-sample cleanup;
batch_cleanup runs (exactly once) only when the pipeline of the sample completes
all stages successfully and only when a caching flag is set. -/
theorem predictSample_cleanup_only_after_success (env : Env) (pp : Preprocessor)
    (s : Nat) (d : Bool) :
    (∀ e pp2 tr, processSample env pp s d = (Except.error e, pp2, tr) →
      Event.cleanup ∉ tr) ∧
    (∀ v pp2 tr, processSample env pp s d = (Except.ok v, pp2, tr) →
      tr.count Event.cleanup =
        if pp.prepare_batches || pp.prepare_subfunctions then 1 else 0) := by
  constructor
  · intro e pp2 tr hps
    cases h1 : env.infer s with
    | error e1 =>
      rw [processSample_infer_error h1] at hps
      simp only [Prod.mk.injEq] at hps
      obtain ⟨-, -, htr⟩ := hps
      subst htr
      simp
    | ok raw =>
      cases h2 : isPatchwise pp with
      | true =>
        cases h3 : cachePop pp.shape_cache s with
        | none =>
          rw [processSample_pop_none h1 h2 h3] at hps
          simp only [Prod.mk.injEq] at hps
          obtain ⟨-, -, htr⟩ := hps
          subst htr
          simp
        | some sc =>
          obtain ⟨seg_shape, cache2⟩ := sc
          cases h4 : env.concat raw seg_shape pp.patch_shape pp.patchwise_grid_overlap with
          | error e2 =>
            rw [processSample_concat_error h1 h2 h3 h4] at hps
            simp only [Prod.mk.injEq] at hps
            obtain ⟨-, -, htr⟩ := hps
            subst htr
            simp
          | ok asm =>
            rw [processSample_patchwise_ok h1 h2 h3 h4] at hps
            cases d with
            | true =>
              rw [discretizePhase_direct] at hps
              simp at hps
            | false =>
              cases h5 : env.save
                  (({ pp with shape_cache := cache2 } : Preprocessor).subfunctions.foldl
                    (fun a f => f a) (npArgmaxLast asm)) s with
              | error e2 =>
                rw [discretizePhase_save_error h5] at hps
                simp only [Prod.mk.injEq] at hps
                obtain ⟨-, -, htr⟩ := hps
                subst htr
                simp
              | ok u =>
                cases u
                rw [discretizePhase_save_ok h5] at hps
                simp at hps
      | false =>
        rw [processSample_nonpatch h1 h2] at hps
        cases d with
        | true =>
          rw [discretizePhase_direct] at hps
          simp at hps
        | false =>
          cases h5 : env.save
              (pp.subfunctions.foldl (fun a f => f a) (npArgmaxLast raw)) s with
          | error e2 =>
            rw [discretizePhase_save_error h5] at hps
            simp only [Prod.mk.injEq] at hps
            obtain ⟨-, -, htr⟩ := hps
            subst htr
            simp
          | ok u =>
            cases u
            rw [discretizePhase_save_ok h5] at hps
            simp at hps
  · intro v pp2 tr hps
    cases h1 : env.infer s with
    | error e1 =>
      rw [processSample_infer_error h1] at hps
      simp at hps
    | ok raw =>
      cases h2 : isPatchwise pp with
      | true =>
        cases h3 : cachePop pp.shape_cache s with
        | none =>
          rw [processSample_pop_none h1 h2 h3] at hps
          simp at hps
        | some sc =>
          obtain ⟨seg_shape, cache2⟩ := sc
          cases h4 : env.concat raw seg_shape pp.patch_shape pp.patchwise_grid_overlap with
          | error e2 =>
            rw [processSample_concat_error h1 h2 h3 h4] at hps
            simp at hps
          | ok asm =>
            rw [processSample_patchwise_ok h1 h2 h3 h4] at hps
            cases d with
            | true =>
              rw [discretizePhase_direct] at hps
              simp only [Prod.mk.injEq] at hps
              obtain ⟨-, -, htr⟩ := hps
              subst htr
              simp [List.count_append, List.count_cons, count_cleanup_postProcs,
                count_cleanup_cleanupEvents]
            | false =>
              cases h5 : env.save
                  (({ pp with shape_cache := cache2 } : Preprocessor).subfunctions.foldl
                    (fun a f => f a) (npArgmaxLast asm)) s with
              | error e2 =>
                rw [discretizePhase_save_error h5] at hps
                simp at hps
              | ok u =>
                cases u
                rw [discretizePhase_save_ok h5] at hps
                simp only [Prod.mk.injEq] at hps
                obtain ⟨-, -, htr⟩ := hps
                subst htr
                simp [List.count_append, List.count_cons, count_cleanup_postProcs,
                  count_cleanup_cleanupEvents]
      | false =>
        rw [processSample_nonpatch h1 h2] at hps
        cases d with
        | true =>
          rw [discretizePhase_direct] at hps
          simp only [Prod.mk.injEq] at hps
          obtain ⟨-, -, htr⟩ := hps
          subst htr
          simp [List.count_append, List.count_cons, count_cleanup_postProcs,
            count_cleanup_cleanupEvents]
        | false =>
          cases h5 : env.save
              (pp.subfunctions.foldl (fun a f => f a) (npArgmaxLast raw)) s with
          | error e2 =>
            rw [discretizePhase_save_error h5] at hps
            simp at hps
          | ok u =>
            cases u
            rw [discretizePhase_save_ok h5] at hps
            simp only [Prod.mk.injEq] at hps
            obtain ⟨-, -, htr⟩ := hps
            subst htr
            simp [List.count_append, List.count_cons, count_cleanup_postProcs,
              count_cleanup_cleanupEvents]

/-- Claim C1 witness: the amended theorem applied at the concrete failing input
of the counterexample scenario. -/
theorem predictSample_cleanup_only_after_success_witness :
    Event.cleanup ∉ [Event.mkDataGen [0] false false false, Event.inferCall 0,
      Event.popShape 0 none] :=
  (predictSample_cleanup_only_after_success envA ppCx 0 false).1 PErr.keyErr ppCx
    [Event.mkDataGen [0] false false false, Event.inferCall 0, Event.popShape 0 none] rfl

/-- Preprocessor in patchwise-grid mode with one cached shape for sample 0
and caching flags off. -/
def ppB : Preprocessor :=
  { ppCx with prepare_batches := false, shape_cache := [(0, [2, 2])] }

/-- Claim C2: once inference for a sample has succeeded, the shape cache is
popped with the identifier of that sample exactly once if the analysis mode is
patchwise-crop or patchwise-grid and never otherwise; the popped shape is
passed to the patch concatenation as the reconstruction target shape; in
any other analysis mode no concatenation happens and the discretization
operates directly on the raw model output. -/
theorem shape_cache_pop_iff_patchwise (env : Env) (pp : Preprocessor) (s : Nat)
    (d : Bool) (raw : ScoreVol) (h1 : env.infer s = Except.ok raw) :
    (popEvents (processSample env pp s d).2.2 =
      if isPatchwise pp then [(s, (cachePop pp.shape_cache s).map Prod.fst)] else []) ∧
    (∀ seg_shape cache2, isPatchwise pp = true →
      cachePop pp.shape_cache s = some (seg_shape, cache2) →
      concatEvents (processSample env pp s d).2.2 =
        [(s, seg_shape, pp.patch_shape, pp.patchwise_grid_overlap)]) ∧
    (isPatchwise pp = false →
      concatEvents (processSample env pp s d).2.2 = [] ∧
      ∀ v pp2 tr, processSample env pp s d = (Except.ok v, pp2, tr) →
        v = pp.subfunctions.foldl (fun a f => f a) (npArgmaxLast raw)) := by
  cases h2 : isPatchwise pp with
  | true =>
    cases h3 : cachePop pp.shape_cache s with
    | none =>
      rw [processSample_pop_none h1 h2 h3]
      refine ⟨by simp [popEvents, h2, h3], ?_, by intro h; simp [h2] at h⟩
      intro ss2 c2 _ h3x
      simp at h3x
    | some sc =>
      obtain ⟨seg_shape, cache2⟩ := sc
      have concatGoal : ∀ tail : List Event,
          concatEvents tail = [] →
          ∀ ss2 c2, (some (seg_shape, cache2) :
              Option (Shape × List (Nat × Shape))) = some (ss2, c2) →
          concatEvents ([Event.mkDataGen [s] false false false, Event.inferCall s,
            Event.popShape s (some seg_shape),
            Event.concatCall s seg_shape pp.patch_shape pp.patchwise_grid_overlap] ++ tail) =
            [(s, ss2, pp.patch_shape, pp.patchwise_grid_overlap)] := by
        intro tail htail ss2 c2 h3x
        injection h3x with h3y
        simp only [Prod.mk.injEq] at h3y
        obtain ⟨rfl, rfl⟩ := h3y
        simp [concatEvents] at htail ⊢
        exact htail
      cases h4 : env.concat raw seg_shape pp.patch_shape pp.patchwise_grid_overlap with
      | error e2 =>
        rw [processSample_concat_error h1 h2 h3 h4]
        refine ⟨by simp [popEvents, h2, h3], ?_, by intro h; simp [h2] at h⟩
        intro ss2 c2 _ h3x
        have := concatGoal [] (by simp [concatEvents]) ss2 c2 h3x
        simpa using this
      | ok asm =>
        rw [processSample_patchwise_ok h1 h2 h3 h4]
        cases d with
        | true =>
          rw [discretizePhase_direct]
          refine ⟨by simp [popEvents, h2, h3, filterMap_postProcs_none,
            filterMap_cleanupEvents_none], ?_, by intro h; simp [h2] at h⟩
          intro ss2 c2 _ h3x
          have := concatGoal (Event.discretizeEv s ::
            ((List.range (({ pp with shape_cache := cache2 } :
              Preprocessor).subfunctions.length)).map fun k => Event.postProcEv s k) ++
            [Event.emitReturn s] ++ cleanupEvents { pp with shape_cache := cache2 })
            (by simp [concatEvents, filterMap_postProcs_none, filterMap_cleanupEvents_none])
            ss2 c2 h3x
          simpa using this
        | false =>
          cases h5 : env.save
              (({ pp with shape_cache := cache2 } : Preprocessor).subfunctions.foldl
                (fun a f => f a) (npArgmaxLast asm)) s with
          | error e2 =>
            rw [discretizePhase_save_error h5]
            refine ⟨by simp [popEvents, h2, h3, filterMap_postProcs_none,
              filterMap_cleanupEvents_none], ?_, by intro h; simp [h2] at h⟩
            intro ss2 c2 _ h3x
            have := concatGoal (Event.discretizeEv s ::
              ((List.range (({ pp with shape_cache := cache2 } :
                Preprocessor).subfunctions.length)).map fun k => Event.postProcEv s k) ++
              [Event.emitSave s])
              (by simp [concatEvents, filterMap_postProcs_none]) ss2 c2 h3x
            simpa using this
          | ok u =>
            cases u
            rw [discretizePhase_save_ok h5]
            refine ⟨by simp [popEvents, h2, h3, filterMap_postProcs_none,
              filterMap_cleanupEvents_none], ?_, by intro h; simp [h2] at h⟩
            intro ss2 c2 _ h3x
            have := concatGoal (Event.discretizeEv s ::
              ((List.range (({ pp with shape_cache := cache2 } :
                Preprocessor).subfunctions.length)).map fun k => Event.postProcEv s k) ++
              [Event.emitSave s] ++ cleanupEvents { pp with shape_cache := cache2 })
              (by simp [concatEvents, filterMap_postProcs_none, filterMap_cleanupEvents_none])
              ss2 c2 h3x
            simpa using this
  | false =>
    refine ⟨?_, by intro a b h; simp [h2] at h, ?_⟩
    all_goals cases d with
    | true =>
      rw [processSample_nonpatch h1 h2, discretizePhase_direct]
      first
      | (refine fun _ => ⟨by simp [concatEvents, filterMap_postProcs_none,
           filterMap_cleanupEvents_none], ?_⟩
         intro v pp2 tr hps
         simp only [Prod.mk.injEq] at hps
         obtain ⟨hv, -, -⟩ := hps
         injection hv with hv2
         exact hv2.symm)
      | simp [popEvents, h2, filterMap_postProcs_none, filterMap_cleanupEvents_none]
    | false =>
      cases h5 : env.save
          (pp.subfunctions.foldl (fun a f => f a) (npArgmaxLast raw)) s with
      | error e2 =>
        rw [processSample_nonpatch h1 h2, discretizePhase_save_error h5]
        first
        | (refine fun _ => ⟨by simp [concatEvents, filterMap_postProcs_none],
             ?_⟩
           intro v pp2 tr hps
           simp at hps)
        | simp [popEvents, h2, filterMap_postProcs_none]
      | ok u =>
        cases u
        rw [processSample_nonpatch h1 h2, discretizePhase_save_ok h5]
        first
        | (refine fun _ => ⟨by simp [concatEvents, filterMap_postProcs_none,
             filterMap_cleanupEvents_none], ?_⟩
           intro v pp2 tr hps
           simp only [Prod.mk.injEq] at hps
           obtain ⟨hv, -, -⟩ := hps
           injection hv with hv2
           exact hv2.symm)
        | simp [popEvents, h2, filterMap_postProcs_none, filterMap_cleanupEvents_none]

/-- Claim C2 witness: at the concrete patchwise input with cached shape [2, 2]
for sample 0, the per-sample pipeline pops the cache exactly once. -/
theorem shape_cache_pop_iff_patchwise_witness :
    popEvents (processSample envA ppB 0 true).2.2 = [(0, some [2, 2])] := by
  rw [(shape_cache_pop_iff_patchwise envA ppB 0 true [[1, 2], [3, 1]] rfl).1]
  rfl

/-- Architecture producing fixed models, for concrete scenarios. -/
def archA : Architecture :=
  { create_model_3D := fun _ _ => { arch := "unet3d", weights := [3, 3] }
  , create_model_2D := fun _ _ => { arch := "unet2d", weights := [2, 2] } }

/-- Preprocessor whose configured overlap equals the window size on an
axis: overlap (40) with window (40). -/
def ppOverlapBad : Preprocessor :=
  { ppCx with patch_shape := [40], patchwise_grid_overlap := [40] }

/-- Claim C3 counterexample: constructing a Neural_Network whose configured
overlap (40) equals the window size (40) on an axis succeeds normally; no
InvalidOverlapError is raised at pipeline construction time, contradicting
the claim. -/
theorem C3_counterexample :
    ppOverlapBad.patchwise_grid_overlap = [40] ∧
    ppOverlapBad.patch_shape = [40] ∧
    Neural_Network.init archA ppOverlapBad 0 [] 20 (1 / 10000) 2 1 ≠
      Except.error InitErr.invalidOverlap := by
  refine ⟨rfl, rfl, ?_⟩
  intro h
  simp [Neural_Network.init] at h

/-- Claim C3 (amended): Neural_Network construction performs no overlap
validation: for every architecture, preprocessor (including any whose
overlap is greater than or equal to the window size on some axis) and
parameters, construction completes successfully and no InvalidOverlapError
is ever raised there. -/
theorem init_never_raises_invalid_overlap (architecture : Architecture)
    (preprocessor : Preprocessor) (loss : Nat) (metrics : List Nat) (epochs : Nat)
    (learninig_rate : ℚ) (batch_queue_size : Nat) (gpu_number : Nat) :
    ∃ nn, Neural_Network.init architecture preprocessor loss metrics epochs
      learninig_rate batch_queue_size gpu_number = Except.ok nn :=
  ⟨_, rfl⟩

/-- Specification of np.argmax on one voxel: the returned index is in
range, carries a maximal score, and every strictly earlier index carries a
strictly smaller score (first-occurrence tie-breaking). -/
theorem argmaxIdx_spec (l : List ℚ) (hl : l ≠ []) :
    argmaxIdx l < l.length ∧
    (∀ i, i < l.length → l.getD i 0 ≤ l.getD (argmaxIdx l) 0) ∧
    (∀ i, i < argmaxIdx l → l.getD i 0 < l.getD (argmaxIdx l) 0) := by
  induction l with
  | nil => cases hl rfl
  | cons x xs ih =>
    cases xs with
    | nil =>
      refine ⟨by simp [argmaxIdx], ?_, ?_⟩
      · intro i hi
        simp only [List.length_singleton, Nat.lt_one_iff] at hi
        subst hi
        simp [argmaxIdx]
      · intro i hi
        simp [argmaxIdx] at hi
    | cons y ys =>
      obtain ⟨iha, ihb, ihc⟩ := ih (by simp)
      have hred : argmaxIdx (x :: y :: ys) =
          if x < (y :: ys).getD (argmaxIdx (y :: ys)) 0 then argmaxIdx (y :: ys) + 1
          else 0 := rfl
      by_cases hx : x < (y :: ys).getD (argmaxIdx (y :: ys)) 0
      · rw [hred, if_pos hx]
        refine ⟨by simpa using iha, ?_, ?_⟩
        · intro i hi
          cases i with
          | zero => simpa using le_of_lt hx
          | succ i2 =>
            simp only [List.getD_cons_succ]
            exact ihb i2 (by simp only [List.length_cons] at hi ⊢; omega)
        · intro i hi
          cases i with
          | zero => simpa using hx
          | succ i2 =>
            simp only [List.getD_cons_succ]
            exact ihc i2 (by omega)
      · rw [hred, if_neg hx]
        push_neg at hx
        refine ⟨by simp, ?_, ?_⟩
        · intro i hi
          cases i with
          | zero => simp
          | succ i2 =>
            simp only [List.getD_cons_succ, List.getD_cons_zero]
            exact le_trans (ihb i2 (by simp only [List.length_cons] at hi ⊢; omega)) hx
        · intro i hi
          omega

theorem phase_cleanupEvents (pp : Preprocessor) :
    ∀ e ∈ cleanupEvents pp, phaseOf e = 5 := by
  unfold cleanupEvents
  split <;> simp [phaseOf]

theorem sorted_replicate3 (n : Nat) : List.Sorted (· ≤ ·) (List.replicate n 3) := by
  induction n with
  | zero => simp
  | succ k ih =>
    rw [List.replicate_succ, List.sorted_cons]
    exact ⟨fun b hb => by rw [List.eq_of_mem_replicate hb], ih⟩

theorem sorted_le_append_iff {l1 l2 : List Nat} :
    List.Sorted (· ≤ ·) (l1 ++ l2) ↔
      List.Sorted (· ≤ ·) l1 ∧ List.Sorted (· ≤ ·) l2 ∧
        ∀ x ∈ l1, ∀ y ∈ l2, x ≤ y :=
  List.pairwise_append

theorem sorted_replicate_block (n : Nat) (pre post : List Nat)
    (hpre : List.Sorted (· ≤ ·) pre) (hpost : List.Sorted (· ≤ ·) post)
    (hpre3 : ∀ x ∈ pre, x ≤ 3) (hpost3 : ∀ y ∈ post, 3 ≤ y) :
    List.Sorted (· ≤ ·) (pre ++ (List.replicate n 3 ++ post)) := by
  rw [sorted_le_append_iff]
  refine ⟨hpre, ?_, ?_⟩
  · rw [sorted_le_append_iff]
    refine ⟨sorted_replicate3 n, hpost, ?_⟩
    intro x hx y hy
    rw [List.eq_of_mem_replicate hx]
    exact hpost3 y hy
  · intro x hx y hy
    rcases List.mem_append.mp hy with h | h
    · rw [List.eq_of_mem_replicate h]
      exact hpre3 x hx
    · exact le_trans (hpre3 x hx) (hpost3 y h)

theorem phases_postProcs (s n : Nat) :
    ((List.range n).map fun k => Event.postProcEv s k).map phaseOf =
      List.replicate n 3 := by
  rw [List.map_map]
  refine List.eq_replicate_iff.mpr ⟨by simp, ?_⟩
  intro b hb
  simp only [List.mem_map] at hb
  obtain ⟨k, -, rfl⟩ := hb
  rfl

theorem sorted_post_cleanup (pp : Preprocessor) :
    List.Sorted (· ≤ ·) (4 :: (cleanupEvents pp).map phaseOf) ∧
    ∀ y ∈ 4 :: (cleanupEvents pp).map phaseOf, 3 ≤ y := by
  unfold cleanupEvents
  split <;> constructor <;> decide

/-- Claim C4: Discretize reduces the per-class score volume to one label per
voxel by taking, along the class axis, the class with the maximum score,
ties broken by the lowest class index; and in every successful per-sample
run the discretization step occurs after fetching, inference and
reassembly and before all postprocessing and emission steps (the phases
along the trace are monotone). -/
theorem discretize_argmax_first_max_and_order :
    (∀ scores : List ℚ, scores ≠ [] →
      argmaxIdx scores < scores.length ∧
      (∀ i, i < scores.length → scores.getD i 0 ≤ scores.getD (argmaxIdx scores) 0) ∧
      (∀ i, i < argmaxIdx scores → scores.getD i 0 < scores.getD (argmaxIdx scores) 0)) ∧
    (∀ env pp s d v pp2 tr, processSample env pp s d = (Except.ok v, pp2, tr) →
      Event.discretizeEv s ∈ tr ∧ List.Sorted (· ≤ ·) (tr.map phaseOf)) := by
  refine ⟨argmaxIdx_spec, ?_⟩
  intro env pp s d v pp2 tr hps
  cases h1 : env.infer s with
  | error e1 =>
    rw [processSample_infer_error h1] at hps
    simp at hps
  | ok raw =>
    cases h2 : isPatchwise pp with
    | true =>
      cases h3 : cachePop pp.shape_cache s with
      | none =>
        rw [processSample_pop_none h1 h2 h3] at hps
        simp at hps
      | some sc =>
        obtain ⟨seg_shape, cache2⟩ := sc
        cases h4 : env.concat raw seg_shape pp.patch_shape pp.patchwise_grid_overlap with
        | error e2 =>
          rw [processSample_concat_error h1 h2 h3 h4] at hps
          simp at hps
        | ok asm =>
          rw [processSample_patchwise_ok h1 h2 h3 h4] at hps
          cases d with
          | true =>
            rw [discretizePhase_direct] at hps
            simp only [Prod.mk.injEq] at hps
            obtain ⟨-, -, htr⟩ := hps
            subst htr
            refine ⟨by simp, ?_⟩
            have hs := sorted_replicate_block
              (({ pp with shape_cache := cache2 } : Preprocessor).subfunctions.length)
              [0, 0, 1, 1, 2]
              (4 :: (cleanupEvents { pp with shape_cache := cache2 }).map phaseOf)
              (by decide) (sorted_post_cleanup _).1 (by decide)
              (sorted_post_cleanup _).2
            simpa only [List.map_append, List.map_cons, List.map_nil, phaseOf,
              phases_postProcs, List.cons_append, List.nil_append, List.append_assoc,
              List.singleton_append] using hs
          | false =>
            cases h5 : env.save
                (({ pp with shape_cache := cache2 } : Preprocessor).subfunctions.foldl
                  (fun a f => f a) (npArgmaxLast asm)) s with
            | error e2 =>
              rw [discretizePhase_save_error h5] at hps
              simp at hps
            | ok u =>
              cases u
              rw [discretizePhase_save_ok h5] at hps
              simp only [Prod.mk.injEq] at hps
              obtain ⟨-, -, htr⟩ := hps
              subst htr
              refine ⟨by simp, ?_⟩
              have hs := sorted_replicate_block
                (({ pp with shape_cache := cache2 } : Preprocessor).subfunctions.length)
                [0, 0, 1, 1, 2]
                (4 :: (cleanupEvents { pp with shape_cache := cache2 }).map phaseOf)
                (by decide) (sorted_post_cleanup _).1 (by decide)
                (sorted_post_cleanup _).2
              simpa only [List.map_append, List.map_cons, List.map_nil, phaseOf,
              phases_postProcs, List.cons_append, List.nil_append, List.append_assoc,
              List.singleton_append] using hs
    | false =>
      rw [processSample_nonpatch h1 h2] at hps
      cases d with
      | true =>
        rw [discretizePhase_direct] at hps
        simp only [Prod.mk.injEq] at hps
        obtain ⟨-, -, htr⟩ := hps
        subst htr
        refine ⟨by simp, ?_⟩
        have hs := sorted_replicate_block pp.subfunctions.length [0, 0, 2]
          (4 :: (cleanupEvents pp).map phaseOf)
          (by decide) (sorted_post_cleanup _).1 (by decide) (sorted_post_cleanup _).2
        simpa only [List.map_append, List.map_cons, List.map_nil, phaseOf,
              phases_postProcs, List.cons_append, List.nil_append, List.append_assoc,
              List.singleton_append] using hs
      | false =>
        cases h5 : env.save
            (pp.subfunctions.foldl (fun a f => f a) (npArgmaxLast raw)) s with
        | error e2 =>
          rw [discretizePhase_save_error h5] at hps
          simp at hps
        | ok u =>
          cases u
          rw [discretizePhase_save_ok h5] at hps
          simp only [Prod.mk.injEq] at hps
          obtain ⟨-, -, htr⟩ := hps
          subst htr
          refine ⟨by simp, ?_⟩
          have hs := sorted_replicate_block pp.subfunctions.length [0, 0, 2]
            (4 :: (cleanupEvents pp).map phaseOf)
            (by decide) (sorted_post_cleanup _).1 (by decide) (sorted_post_cleanup _).2
          simpa only [List.map_append, List.map_cons, List.map_nil, phaseOf,
              phases_postProcs, List.cons_append, List.nil_append, List.append_assoc,
              List.singleton_append] using hs

/-- Claim C4 witness: the argmax spec applied to the concrete voxel
(3, 7, 7, 2) — the returned index is in range — and the ordering result
applied to a concrete successful patchwise run. -/
theorem discretize_argmax_first_max_and_order_witness :
    argmaxIdx [(3 : ℚ), 7, 7, 2] < 4 ∧
    Event.discretizeEv 0 ∈ (processSample envA ppB 0 true).2.2 :=
  ⟨(discretize_argmax_first_max_and_order.1 [(3 : ℚ), 7, 7, 2] (by decide)).1,
   (discretize_argmax_first_max_and_order.2 envA ppB 0 true [1, 0]
      { ppB with shape_cache := [] }
      [Event.mkDataGen [0] false false false, Event.inferCall 0,
       Event.popShape 0 (some [2, 2]), Event.concatCall 0 [2, 2] [16, 16] [4, 4],
       Event.discretizeEv 0, Event.emitReturn 0] rfl).1⟩

theorem saveEvents_append (l1 l2 : List Event) :
    saveEvents (l1 ++ l2) = saveEvents l1 ++ saveEvents l2 := by
  simp [saveEvents]

theorem returnEvents_append (l1 l2 : List Event) :
    returnEvents (l1 ++ l2) = returnEvents l1 ++ returnEvents l2 := by
  simp [returnEvents]

theorem postProcEvents_append (l1 l2 : List Event) :
    postProcEvents (l1 ++ l2) = postProcEvents l1 ++ postProcEvents l2 := by
  simp [postProcEvents]

theorem postProcEvents_cons (e : Event) (l : List Event) :
    postProcEvents (e :: l) =
      (match e with
       | Event.postProcEv s i => [(s, i)]
       | _ => []) ++ postProcEvents l := by
  cases e <;> simp [postProcEvents, List.filterMap_cons]

theorem saveEvents_cons (e : Event) (l : List Event) :
    saveEvents (e :: l) =
      (match e with
       | Event.emitSave s => [s]
       | _ => []) ++ saveEvents l := by
  cases e <;> simp [saveEvents, List.filterMap_cons]

theorem returnEvents_cons (e : Event) (l : List Event) :
    returnEvents (e :: l) =
      (match e with
       | Event.emitReturn s => [s]
       | _ => []) ++ returnEvents l := by
  cases e <;> simp [returnEvents, List.filterMap_cons]

theorem postProcEvents_postProcs (s : Nat) (l : List Nat) :
    postProcEvents (l.map fun k => Event.postProcEv s k) = l.map fun i => (s, i) := by
  induction l with
  | nil => rfl
  | cons a t ih =>
    simp only [List.map_cons, postProcEvents_cons]
    simp only [postProcEvents] at ih
    simp only [postProcEvents]
    rw [ih]
    rfl

theorem saveEvents_postProcs (s : Nat) (n : Nat) :
    saveEvents ((List.range n).map fun k => Event.postProcEv s k) = [] :=
  filterMap_postProcs_none _ (fun _ _ => rfl) s n

theorem returnEvents_postProcs (s : Nat) (n : Nat) :
    returnEvents ((List.range n).map fun k => Event.postProcEv s k) = [] :=
  filterMap_postProcs_none _ (fun _ _ => rfl) s n

theorem saveEvents_cleanupEvents (pp : Preprocessor) :
    saveEvents (cleanupEvents pp) = [] :=
  filterMap_cleanupEvents_none _ rfl pp

theorem returnEvents_cleanupEvents (pp : Preprocessor) :
    returnEvents (cleanupEvents pp) = [] :=
  filterMap_cleanupEvents_none _ rfl pp

theorem postProcEvents_cleanupEvents (pp : Preprocessor) :
    postProcEvents (cleanupEvents pp) = [] :=
  filterMap_cleanupEvents_none _ rfl pp

/-- Facts about any successful per-sample run of the predict pipeline:
the emitted volume is the postprocessed argmax of the assembled (or raw)
model output, each postprocessor runs exactly once in registration order,
emission matches the direct_output flag, cleanup runs exactly when a
caching flag is set, the discretization event is present, the phases along
the trace are monotone, and the caching flags are unchanged. -/
theorem processSample_ok_facts (env : Env) (pp : Preprocessor) (s : Nat) (d : Bool)
    (v : LabelVol) (pp2 : Preprocessor) (tr : List Event)
    (hps : processSample env pp s d = (Except.ok v, pp2, tr)) :
    (∃ asm, inferAssembled env pp s = Except.ok asm ∧
      v = pp.subfunctions.foldl (fun a f => f a) (npArgmaxLast asm)) ∧
    postProcEvents tr = (List.range pp.subfunctions.length).map (fun i => (s, i)) ∧
    saveEvents tr = (if d then [] else [s]) ∧
    returnEvents tr = (if d then [s] else []) ∧
    tr.count Event.cleanup =
      (if pp.prepare_batches || pp.prepare_subfunctions then 1 else 0) ∧
    Event.discretizeEv s ∈ tr ∧
    List.Sorted (· ≤ ·) (tr.map phaseOf) ∧
    pp2.prepare_batches = pp.prepare_batches ∧
    pp2.prepare_subfunctions = pp.prepare_subfunctions := by
  cases h1 : env.infer s with
  | error e1 =>
    rw [processSample_infer_error h1] at hps
    simp at hps
  | ok raw =>
    cases h2 : isPatchwise pp with
    | true =>
      cases h3 : cachePop pp.shape_cache s with
      | none =>
        rw [processSample_pop_none h1 h2 h3] at hps
        simp at hps
      | some sc =>
        obtain ⟨seg_shape, cache2⟩ := sc
        cases h4 : env.concat raw seg_shape pp.patch_shape pp.patchwise_grid_overlap with
        | error e2 =>
          rw [processSample_concat_error h1 h2 h3 h4] at hps
          simp at hps
        | ok asm =>
          rw [processSample_patchwise_ok h1 h2 h3 h4] at hps
          cases d with
          | true =>
            rw [discretizePhase_direct] at hps
            simp only [Prod.mk.injEq, Except.ok.injEq] at hps
            obtain ⟨hv, hpp, htr⟩ := hps
            subst hv hpp htr
            refine ⟨⟨asm, by simp [inferAssembled, h1, h2, h3, h4], rfl⟩,
              ?_, ?_, ?_, ?_, by simp, ?_, rfl, rfl⟩
            · simp [postProcEvents_append, postProcEvents_cons,
                postProcEvents_postProcs, postProcEvents_cleanupEvents]
            · simp [saveEvents_append, saveEvents_cons, saveEvents_postProcs,
                saveEvents_cleanupEvents]
            · simp [returnEvents_append, returnEvents_cons, returnEvents_postProcs,
                returnEvents_cleanupEvents]
            · simp [List.count_append, List.count_cons, count_cleanup_postProcs,
                count_cleanup_cleanupEvents]
            · have hs := sorted_replicate_block
                (({ pp with shape_cache := cache2 } : Preprocessor).subfunctions.length)
                [0, 0, 1, 1, 2]
                (4 :: (cleanupEvents { pp with shape_cache := cache2 }).map phaseOf)
                (by decide) (sorted_post_cleanup _).1 (by decide)
                (sorted_post_cleanup _).2
              simpa only [List.map_append, List.map_cons, List.map_nil, phaseOf,
                phases_postProcs, List.cons_append, List.nil_append, List.append_assoc,
                List.singleton_append] using hs
          | false =>
            cases h5 : env.save
                (({ pp with shape_cache := cache2 } : Preprocessor).subfunctions.foldl
                  (fun a f => f a) (npArgmaxLast asm)) s with
            | error e2 =>
              rw [discretizePhase_save_error h5] at hps
              simp at hps
            | ok u =>
              cases u
              rw [discretizePhase_save_ok h5] at hps
              simp only [Prod.mk.injEq, Except.ok.injEq] at hps
              obtain ⟨hv, hpp, htr⟩ := hps
              subst hv hpp htr
              refine ⟨⟨asm, by simp [inferAssembled, h1, h2, h3, h4], rfl⟩,
                ?_, ?_, ?_, ?_, by simp, ?_, rfl, rfl⟩
              · simp [postProcEvents_append, postProcEvents_cons,
                  postProcEvents_postProcs, postProcEvents_cleanupEvents]
              · simp [saveEvents_append, saveEvents_cons, saveEvents_postProcs,
                  saveEvents_cleanupEvents]
              · simp [returnEvents_append, returnEvents_cons, returnEvents_postProcs,
                  returnEvents_cleanupEvents]
              · simp [List.count_append, List.count_cons, count_cleanup_postProcs,
                  count_cleanup_cleanupEvents]
              · have hs := sorted_replicate_block
                  (({ pp with shape_cache := cache2 } : Preprocessor).subfunctions.length)
                  [0, 0, 1, 1, 2]
                  (4 :: (cleanupEvents { pp with shape_cache := cache2 }).map phaseOf)
                  (by decide) (sorted_post_cleanup _).1 (by decide)
                  (sorted_post_cleanup _).2
                simpa only [List.map_append, List.map_cons, List.map_nil, phaseOf,
                  phases_postProcs, List.cons_append, List.nil_append, List.append_assoc,
                  List.singleton_append] using hs
    | false =>
      rw [processSample_nonpatch h1 h2] at hps
      cases d with
      | true =>
        rw [discretizePhase_direct] at hps
        simp only [Prod.mk.injEq, Except.ok.injEq] at hps
        obtain ⟨hv, hpp, htr⟩ := hps
        subst hv hpp htr
        refine ⟨⟨raw, by simp [inferAssembled, h1, h2], rfl⟩,
          ?_, ?_, ?_, ?_, by simp, ?_, rfl, rfl⟩
        · simp [postProcEvents_append, postProcEvents_cons,
            postProcEvents_postProcs, postProcEvents_cleanupEvents]
        · simp [saveEvents_append, saveEvents_cons, saveEvents_postProcs,
            saveEvents_cleanupEvents]
        · simp [returnEvents_append, returnEvents_cons, returnEvents_postProcs,
            returnEvents_cleanupEvents]
        · simp [List.count_append, List.count_cons, count_cleanup_postProcs,
            count_cleanup_cleanupEvents]
        · have hs := sorted_replicate_block pp.subfunctions.length [0, 0, 2]
            (4 :: (cleanupEvents pp).map phaseOf)
            (by decide) (sorted_post_cleanup _).1 (by decide) (sorted_post_cleanup _).2
          simpa only [List.map_append, List.map_cons, List.map_nil, phaseOf,
            phases_postProcs, List.cons_append, List.nil_append, List.append_assoc,
            List.singleton_append] using hs
      | false =>
        cases h5 : env.save
            (pp.subfunctions.foldl (fun a f => f a) (npArgmaxLast raw)) s with
        | error e2 =>
          rw [discretizePhase_save_error h5] at hps
          simp at hps
        | ok u =>
          cases u
          rw [discretizePhase_save_ok h5] at hps
          simp only [Prod.mk.injEq, Except.ok.injEq] at hps
          obtain ⟨hv, hpp, htr⟩ := hps
          subst hv hpp htr
          refine ⟨⟨raw, by simp [inferAssembled, h1, h2], rfl⟩,
            ?_, ?_, ?_, ?_, by simp, ?_, rfl, rfl⟩
          · simp [postProcEvents_append, postProcEvents_cons,
              postProcEvents_postProcs, postProcEvents_cleanupEvents]
          · simp [saveEvents_append, saveEvents_cons, saveEvents_postProcs,
              saveEvents_cleanupEvents]
          · simp [returnEvents_append, returnEvents_cons, returnEvents_postProcs,
              returnEvents_cleanupEvents]
          · simp [List.count_append, List.count_cons, count_cleanup_postProcs,
              count_cleanup_cleanupEvents]
          · have hs := sorted_replicate_block pp.subfunctions.length [0, 0, 2]
              (4 :: (cleanupEvents pp).map phaseOf)
              (by decide) (sorted_post_cleanup _).1 (by decide) (sorted_post_cleanup _).2
            simpa only [List.map_append, List.map_cons, List.map_nil, phaseOf,
              phases_postProcs, List.cons_append, List.nil_append, List.append_assoc,
              List.singleton_append] using hs

theorem predictLoop_nil (env : Env) (pp : Preprocessor) (d : Bool) :
    predictLoop env pp [] d = (Except.ok [], pp, []) := rfl

theorem predictLoop_cons_err {env : Env} {pp : Preprocessor} {s : Nat} {d : Bool}
    {rest : List Nat} {e : PErr} {ppx : Preprocessor} {evx : List Event}
    (hp : processSample env pp s d = (Except.error e, ppx, evx)) :
    predictLoop env pp (s :: rest) d = (Except.error e, ppx, evx) := by
  simp [predictLoop, hp]

theorem predictLoop_cons_ok_err {env : Env} {pp : Preprocessor} {s : Nat} {d : Bool}
    {rest : List Nat} {vol : LabelVol} {ppx : Preprocessor} {evx : List Event}
    {e : PErr} {ppy : Preprocessor} {evy : List Event}
    (hp : processSample env pp s d = (Except.ok vol, ppx, evx))
    (hq : predictLoop env ppx rest d = (Except.error e, ppy, evy)) :
    predictLoop env pp (s :: rest) d = (Except.error e, ppy, evx ++ evy) := by
  simp [predictLoop, hp, hq]

theorem predictLoop_cons_ok_ok {env : Env} {pp : Preprocessor} {s : Nat} {d : Bool}
    {rest : List Nat} {vol : LabelVol} {ppx : Preprocessor} {evx : List Event}
    {vols2 : List LabelVol} {ppy : Preprocessor} {evy : List Event}
    (hp : processSample env pp s d = (Except.ok vol, ppx, evx))
    (hq : predictLoop env ppx rest d = (Except.ok vols2, ppy, evy)) :
    predictLoop env pp (s :: rest) d = (Except.ok (vol :: vols2), ppy, evx ++ evy) := by
  simp [predictLoop, hp, hq]

/-- Facts about a fully successful predict loop: one result per sample,
emissions once per sample in input order according to the output mode, one
cleanup per sample exactly when a caching flag is set, and unchanged
caching flags. -/
theorem predictLoop_ok_facts (env : Env) (d : Bool) :
    ∀ (samples : List Nat) (pp : Preprocessor) (vols : List LabelVol)
      (pp2 : Preprocessor) (tr : List Event),
      predictLoop env pp samples d = (Except.ok vols, pp2, tr) →
      vols.length = samples.length ∧
      saveEvents tr = (if d then [] else samples) ∧
      returnEvents tr = (if d then samples else []) ∧
      tr.count Event.cleanup =
        (if pp.prepare_batches || pp.prepare_subfunctions then samples.length else 0) ∧
      pp2.prepare_batches = pp.prepare_batches ∧
      pp2.prepare_subfunctions = pp.prepare_subfunctions := by
  intro samples
  induction samples with
  | nil =>
    intro pp vols pp2 tr h
    simp only [predictLoop, Prod.mk.injEq, Except.ok.injEq] at h
    obtain ⟨hv, hpp, htr⟩ := h
    subst hv hpp htr
    simp [saveEvents, returnEvents]
  | cons s rest ih =>
    intro pp vols pp2 tr h
    rcases hp : processSample env pp s d with ⟨res, ppx, evx⟩
    cases res with
    | error e =>
      rw [predictLoop_cons_err hp] at h
      simp at h
    | ok vol =>
      rcases hq : predictLoop env ppx rest d with ⟨res2, ppy, evy⟩
      cases res2 with
      | error e =>
        rw [predictLoop_cons_ok_err hp hq] at h
        simp at h
      | ok vols2 =>
        rw [predictLoop_cons_ok_ok hp hq] at h
        simp only [Prod.mk.injEq, Except.ok.injEq] at h
        obtain ⟨hv, hpp, htr⟩ := h
        subst hv hpp htr
        obtain ⟨-, -, hsave, hret, hcount, -, -, hb, hsub⟩ :=
          processSample_ok_facts env pp s d vol ppx evx hp
        obtain ⟨hlen2, hsave2, hret2, hcount2, hb2, hsub2⟩ := ih ppx vols2 ppy evy hq
        rw [hb, hsub] at hcount2
        refine ⟨by simp [hlen2], ?_, ?_, ?_, by rw [hb2, hb], by rw [hsub2, hsub]⟩
        · rw [saveEvents_append, hsave, hsave2]
          cases d <;> simp
        · rw [returnEvents_append, hret, hret2]
          cases d <;> simp
        · rw [List.count_append, hcount, hcount2]
          by_cases hc : (pp.prepare_batches || pp.prepare_subfunctions) = true <;>
            simp [hc] <;> omega

/-- Claim C5: when every sample succeeds, predict with direct_output true
returns exactly one predicted volume per sample, in the order of the input
sample list, and never calls the output sink; with direct_output false it
calls save on the output sink exactly once per sample with that
identifier (in input order) and returns no value. -/
theorem predict_output_discipline (env : Env) (nn : Neural_Network)
    (samples : List Nat) :
    (∀ vols nn2 tr, nn.predict env samples true = (Except.ok (some vols), nn2, tr) →
      vols.length = samples.length ∧ saveEvents tr = [] ∧ returnEvents tr = samples) ∧
    (∀ r nn2 tr, nn.predict env samples false = (Except.ok r, nn2, tr) →
      r = none ∧ saveEvents tr = samples ∧ returnEvents tr = []) := by
  constructor
  · intro vols nn2 tr h
    unfold Neural_Network.predict at h
    rcases hq : predictLoop env nn.preprocessor samples true with ⟨res, ppy, evy⟩
    rw [hq] at h
    cases res with
    | error e => simp at h
    | ok vols2 =>
      simp only [if_true, Prod.mk.injEq, Except.ok.injEq] at h
      obtain ⟨hv, -, htr⟩ := h
      subst htr
      obtain ⟨hlen, hsave, hret, -, -, -⟩ :=
        predictLoop_ok_facts env true samples nn.preprocessor vols2 ppy evy hq
      obtain rfl : vols2 = vols := Option.some.injEq .. ▸ hv
      exact ⟨hlen, by simpa using hsave, by simpa using hret⟩
  · intro r nn2 tr h
    unfold Neural_Network.predict at h
    rcases hq : predictLoop env nn.preprocessor samples false with ⟨res, ppy, evy⟩
    rw [hq] at h
    cases res with
    | error e => simp at h
    | ok vols2 =>
      simp only [if_false, Prod.mk.injEq, Except.ok.injEq] at h
      obtain ⟨hv, -, htr⟩ := h
      subst htr
      obtain ⟨-, hsave, hret, -, -, -⟩ :=
        predictLoop_ok_facts env false samples nn.preprocessor vols2 ppy evy hq
      exact ⟨hv.symm, by simpa using hsave, by simpa using hret⟩

/-- Preprocessor in full-image mode with caching flags off. -/
def ppA : Preprocessor :=
  { three_dim := false
  , channels := 1
  , classes := 2
  , analysis := "fullimage"
  , patch_shape := [16, 16]
  , patchwise_grid_overlap := [4, 4]
  , prepare_batches := false
  , prepare_subfunctions := false
  , shape_cache := []
  , subfunctions := [] }

/-- Concrete Neural_Network instance over the full-image preprocessor. -/
def nnA : Neural_Network :=
  { model := { arch := "unet2d", weights := [2, 2] }
  , initialization_weights := [2, 2]
  , preprocessor := ppA
  , loss := 0
  , metrics := []
  , epochs := 20
  , learninig_rate := 1 / 10000
  , batch_queue_size := 2
  , shuffle_batches := true }

/-- Claim C5 witness: the output discipline applied to the concrete two-sample
direct-output run. -/
theorem predict_output_discipline_witness :
    ([[1, 0], [1, 0]] : List LabelVol).length = ([0, 1] : List Nat).length ∧
    saveEvents [Event.mkDataGen [0] false false false, Event.inferCall 0,
      Event.discretizeEv 0, Event.emitReturn 0,
      Event.mkDataGen [1] false false false, Event.inferCall 1,
      Event.discretizeEv 1, Event.emitReturn 1] = [] ∧
    returnEvents [Event.mkDataGen [0] false false false, Event.inferCall 0,
      Event.discretizeEv 0, Event.emitReturn 0,
      Event.mkDataGen [1] false false false, Event.inferCall 1,
      Event.discretizeEv 1, Event.emitReturn 1] = [0, 1] :=
  (predict_output_discipline envA nnA [0, 1]).1 [[1, 0], [1, 0]] nnA
    [Event.mkDataGen [0] false false false, Event.inferCall 0,
     Event.discretizeEv 0, Event.emitReturn 0,
     Event.mkDataGen [1] false false false, Event.inferCall 1,
     Event.discretizeEv 1, Event.emitReturn 1] rfl

/-- Claim C6: batch_cleanup is invoked after a completed Train stage, after a
completed Evaluate stage, and once after each sample of a completed
Predict stage, exactly when prepare_batches or prepare_subfunctions is
set; otherwise no cleanup call is made. -/
theorem batch_cleanup_iff_caching (env : Env) (nn : Neural_Network) :
    (∀ sl w2, env.fit sl nn.model.weights = Except.ok w2 →
      ((nn.train env sl).2.2).count Event.cleanup =
        (if nn.preprocessor.prepare_batches || nn.preprocessor.prepare_subfunctions
         then 1 else 0)) ∧
    (∀ ts vs wh, env.fitEval ts vs nn.model.weights = Except.ok wh →
      ((nn.evaluate env ts vs).2.2).count Event.cleanup =
        (if nn.preprocessor.prepare_batches || nn.preprocessor.prepare_subfunctions
         then 1 else 0)) ∧
    (∀ samples d r nn2 tr, nn.predict env samples d = (Except.ok r, nn2, tr) →
      tr.count Event.cleanup =
        (if nn.preprocessor.prepare_batches || nn.preprocessor.prepare_subfunctions
         then samples.length else 0)) := by
  refine ⟨?_, ?_, ?_⟩
  · intro sl w2 h
    simp [Neural_Network.train, h, List.count_append, List.count_cons,
      count_cleanup_cleanupEvents]
  · intro ts vs wh h
    simp [Neural_Network.evaluate, h, List.count_append, List.count_cons,
      count_cleanup_cleanupEvents]
  · intro samples d r nn2 tr h
    unfold Neural_Network.predict at h
    rcases hq : predictLoop env nn.preprocessor samples d with ⟨res, ppy, evy⟩
    rw [hq] at h
    cases res with
    | error e => simp at h
    | ok vols2 =>
      simp only [Prod.mk.injEq] at h
      obtain ⟨-, -, htr⟩ := h
      subst htr
      exact (predictLoop_ok_facts env d samples nn.preprocessor vols2 ppy evy hq).2.2.2.1

/-- Preprocessor with batch caching enabled. -/
def ppD : Preprocessor :=
  { ppA with prepare_batches := true }

/-- Neural_Network instance whose preprocessor has batch caching on. -/
def nnB : Neural_Network :=
  { nnA with preprocessor := ppD }

/-- Claim C6 witness: after a successful train call with batch caching on,
exactly one cleanup call is made. -/
theorem batch_cleanup_iff_caching_witness :
    ((nnB.train envA [0]).2.2).count Event.cleanup = 1 := by
  have h := (batch_cleanup_iff_caching envA nnB).1 [0] [0, 2, 2] rfl
  exact h.trans rfl

/-- Claim C7: in every successful per-sample predict run, each registered
post-processor is applied exactly once, in registration order, to the
discretized volume (the emitted volume is the left fold of the registered
post-processors over the argmax of the assembled model output), and every
post-processing step occurs after discretization and before emission (the
phases along the trace are monotone). -/
theorem postprocessors_registration_order (env : Env) (pp : Preprocessor) (s : Nat)
    (d : Bool) (v : LabelVol) (pp2 : Preprocessor) (tr : List Event) (asm : ScoreVol)
    (hps : processSample env pp s d = (Except.ok v, pp2, tr))
    (ha : inferAssembled env pp s = Except.ok asm) :
    postProcEvents tr = (List.range pp.subfunctions.length).map (fun i => (s, i)) ∧
    v = pp.subfunctions.foldl (fun a f => f a) (npArgmaxLast asm) ∧
    Event.discretizeEv s ∈ tr ∧
    List.Sorted (· ≤ ·) (tr.map phaseOf) := by
  obtain ⟨⟨asm2, ha2, hv⟩, hpost, -, -, -, hmem, hsort, -, -⟩ :=
    processSample_ok_facts env pp s d v pp2 tr hps
  rw [ha] at ha2
  injection ha2 with ha3
  subst ha3
  exact ⟨hpost, hv, hmem, hsort⟩

/-- Preprocessor with one registered postprocessing subfunction. -/
def ppC : Preprocessor :=
  { ppA with subfunctions := [fun v => v.map (fun x => x + 1)] }

/-- Claim C7 witness: at the concrete input with one registered post-processor,
its postprocessing runs exactly once. -/
theorem postprocessors_registration_order_witness :
    postProcEvents [Event.mkDataGen [0] false false false, Event.inferCall 0,
      Event.discretizeEv 0, Event.postProcEv 0 0, Event.emitReturn 0] = [(0, 0)] :=
  (postprocessors_registration_order envA ppC 0 true [2, 1] ppC
    [Event.mkDataGen [0] false false false, Event.inferCall 0, Event.discretizeEv 0,
     Event.postProcEv 0 0, Event.emitReturn 0] [[1, 2], [3, 1]] rfl rfl).1

/-- Claim C8: dump with path prefix p writes the structural descriptor of the model
to exactly p ++ ".model.json" and its parameter blob to exactly
p ++ ".weights.h5", and load with the same prefix reads from exactly those
two paths; no other artifact paths are produced. -/
theorem dump_load_paths (nn : Neural_Network) (env : Env) (p : String) :
    nn.dump p = [FileOp.writeJson (p ++ ".model.json") nn.model.arch,
      FileOp.writeWeights (p ++ ".weights.h5") nn.model.weights] ∧
    (nn.load env p).2 = [FileOp.readJson (p ++ ".model.json"),
      FileOp.readWeights (p ++ ".weights.h5")] ∧
    (nn.dump p).map FileOp.path = [p ++ ".model.json", p ++ ".weights.h5"] ∧
    ((nn.load env p).2).map FileOp.path = [p ++ ".model.json", p ++ ".weights.h5"] :=
  ⟨rfl, rfl, rfl, rfl⟩

theorem dataGenEvents_append (l1 l2 : List Event) :
    dataGenEvents (l1 ++ l2) = dataGenEvents l1 ++ dataGenEvents l2 := by
  simp [dataGenEvents]

theorem dataGenEvents_cons (e : Event) (l : List Event) :
    dataGenEvents (e :: l) =
      (match e with
       | Event.mkDataGen a b c d2 => [(a, b, c, d2)]
       | _ => []) ++ dataGenEvents l := by
  cases e <;> simp [dataGenEvents, List.filterMap_cons]

theorem dataGenEvents_postProcs (s n : Nat) :
    dataGenEvents ((List.range n).map fun k => Event.postProcEv s k) = [] :=
  filterMap_postProcs_none _ (fun _ _ => rfl) s n

theorem dataGenEvents_cleanupEvents (pp : Preprocessor) :
    dataGenEvents (cleanupEvents pp) = [] :=
  filterMap_cleanupEvents_none _ rfl pp

theorem dataGenEvents_nil : dataGenEvents [] = [] := rfl

/-- In every per-sample run (successful or not), exactly one DataGenerator
is built: for the singleton list of that sample, non-training,
non-validation, with shuffling disabled. -/
theorem processSample_dataGen (env : Env) (pp : Preprocessor) (s : Nat) (d : Bool) :
    dataGenEvents (processSample env pp s d).2.2 = [([s], false, false, false)] := by
  cases h1 : env.infer s with
  | error e1 =>
    rw [processSample_infer_error h1]
    simp [dataGenEvents_cons, dataGenEvents_nil]
  | ok raw =>
    cases h2 : isPatchwise pp with
    | true =>
      cases h3 : cachePop pp.shape_cache s with
      | none =>
        rw [processSample_pop_none h1 h2 h3]
        simp [dataGenEvents_cons, dataGenEvents_nil]
      | some sc =>
        obtain ⟨seg_shape, cache2⟩ := sc
        cases h4 : env.concat raw seg_shape pp.patch_shape pp.patchwise_grid_overlap with
        | error e2 =>
          rw [processSample_concat_error h1 h2 h3 h4]
          simp [dataGenEvents_cons, dataGenEvents_nil]
        | ok asm =>
          rw [processSample_patchwise_ok h1 h2 h3 h4]
          cases d with
          | true =>
            rw [discretizePhase_direct]
            simp [dataGenEvents_append, dataGenEvents_cons, dataGenEvents_postProcs,
              dataGenEvents_cleanupEvents, dataGenEvents_nil]
          | false =>
            cases h5 : env.save
                (({ pp with shape_cache := cache2 } : Preprocessor).subfunctions.foldl
                  (fun a f => f a) (npArgmaxLast asm)) s with
            | error e2 =>
              rw [discretizePhase_save_error h5]
              simp [dataGenEvents_append, dataGenEvents_cons, dataGenEvents_postProcs,
                dataGenEvents_nil]
            | ok u =>
              cases u
              rw [discretizePhase_save_ok h5]
              simp [dataGenEvents_append, dataGenEvents_cons, dataGenEvents_postProcs,
                dataGenEvents_cleanupEvents, dataGenEvents_nil]
    | false =>
      rw [processSample_nonpatch h1 h2]
      cases d with
      | true =>
        rw [discretizePhase_direct]
        simp [dataGenEvents_append, dataGenEvents_cons, dataGenEvents_postProcs,
          dataGenEvents_cleanupEvents, dataGenEvents_nil]
      | false =>
        cases h5 : env.save
            (pp.subfunctions.foldl (fun a f => f a) (npArgmaxLast raw)) s with
        | error e2 =>
          rw [discretizePhase_save_error h5]
          simp [dataGenEvents_append, dataGenEvents_cons, dataGenEvents_postProcs,
            dataGenEvents_nil]
        | ok u =>
          cases u
          rw [discretizePhase_save_ok h5]
          simp [dataGenEvents_append, dataGenEvents_cons, dataGenEvents_postProcs,
            dataGenEvents_cleanupEvents, dataGenEvents_nil]

theorem predictLoop_dataGen (env : Env) (d : Bool) :
    ∀ (samples : List Nat) (pp : Preprocessor),
      ∀ g ∈ dataGenEvents (predictLoop env pp samples d).2.2,
        g.2.1 = false ∧ g.2.2.1 = false ∧ g.2.2.2 = false ∧
        g.1.length = 1 ∧ ∀ x ∈ g.1, x ∈ samples := by
  intro samples
  induction samples with
  | nil =>
    intro pp g hg
    rw [predictLoop_nil] at hg
    simp [dataGenEvents_nil] at hg
  | cons s rest ih =>
    intro pp g hg
    rcases hp : processSample env pp s d with ⟨res, ppx, evx⟩
    have hevx : dataGenEvents evx = [([s], false, false, false)] := by
      have h0 := processSample_dataGen env pp s d
      rw [hp] at h0
      exact h0
    cases res with
    | error e =>
      rw [predictLoop_cons_err hp] at hg
      rw [show ((Except.error e : Except PErr LabelVol), ppx, evx).2.2 = evx from rfl,
        hevx] at hg
      simp only [List.mem_singleton] at hg
      subst hg
      simp
    | ok vol =>
      rcases hq : predictLoop env ppx rest d with ⟨res2, ppy, evy⟩
      have hloop : ∀ g2 ∈ dataGenEvents evy,
          g2.2.1 = false ∧ g2.2.2.1 = false ∧ g2.2.2.2 = false ∧
          g2.1.length = 1 ∧ ∀ x ∈ g2.1, x ∈ rest := by
        have h0 := ih ppx
        rw [hq] at h0
        exact h0
      have hsplit : g ∈ dataGenEvents evx ∨ g ∈ dataGenEvents evy := by
        cases res2 with
        | error e =>
          rw [predictLoop_cons_ok_err hp hq] at hg
          rw [show ((Except.error e : Except PErr (List LabelVol)), ppy,
            evx ++ evy).2.2 = evx ++ evy from rfl, dataGenEvents_append] at hg
          exact List.mem_append.mp hg
        | ok vols2 =>
          rw [predictLoop_cons_ok_ok hp hq] at hg
          rw [show ((Except.ok (vol :: vols2) : Except PErr (List LabelVol)), ppy,
            evx ++ evy).2.2 = evx ++ evy from rfl, dataGenEvents_append] at hg
          exact List.mem_append.mp hg
      rcases hsplit with hgl | hgr
      · rw [hevx] at hgl
        simp only [List.mem_singleton] at hgl
        subst hgl
        simp
      · obtain ⟨ha, hb, hc, hd, he⟩ := hloop g hgr
        exact ⟨ha, hb, hc, hd, fun x hx => List.mem_cons_of_mem s (he x hx)⟩

/-- Claim C9: predict constructs every Batch Stream with shuffling disabled and
a single-sample list drawn from the input samples, in non-training
non-validation mode, regardless of the shuffle_batches setting of the instance;
train and evaluate pass the shuffle_batches setting through to their
generators. -/
theorem predict_generators_unshuffled (env : Env) (nn : Neural_Network) :
    (∀ samples d, ∀ g ∈ dataGenEvents (nn.predict env samples d).2.2,
      g.2.1 = false ∧ g.2.2.1 = false ∧ g.2.2.2 = false ∧
      g.1.length = 1 ∧ ∀ x ∈ g.1, x ∈ samples) ∧
    (∀ sl, dataGenEvents (nn.train env sl).2.2 =
      [(sl, true, false, nn.shuffle_batches)]) ∧
    (∀ ts vs, dataGenEvents (nn.evaluate env ts vs).2.2 =
      [(ts, true, false, nn.shuffle_batches), (vs, true, true, nn.shuffle_batches)]) := by
  refine ⟨?_, ?_, ?_⟩
  · intro samples d g hg
    unfold Neural_Network.predict at hg
    rcases hq : predictLoop env nn.preprocessor samples d with ⟨res, ppy, evy⟩
    rw [hq] at hg
    have h0 := predictLoop_dataGen env d samples nn.preprocessor
    rw [hq] at h0
    cases res with
    | error e => exact h0 g hg
    | ok vols => exact h0 g hg
  · intro sl
    cases h : env.fit sl nn.model.weights with
    | error e =>
      simp [Neural_Network.train, h, dataGenEvents_cons, dataGenEvents_nil]
    | ok w2 =>
      simp [Neural_Network.train, h, dataGenEvents_append, dataGenEvents_cons,
        dataGenEvents_cleanupEvents, dataGenEvents_nil]
  · intro ts vs
    cases h : env.fitEval ts vs nn.model.weights with
    | error e =>
      simp [Neural_Network.evaluate, h, dataGenEvents_cons, dataGenEvents_nil]
    | ok wh =>
      simp [Neural_Network.evaluate, h, dataGenEvents_append, dataGenEvents_cons,
        dataGenEvents_cleanupEvents, dataGenEvents_nil]

/-- Claim C9 witness: applied to the concrete single-sample predict run (the
generator there is for the singleton list) and to a concrete train call
(the generator carries the shuffle setting of the instance). -/
theorem predict_generators_unshuffled_witness :
    ([0] : List Nat).length = 1 ∧
    dataGenEvents (nnA.train envA [0, 1]).2.2 = [([0, 1], true, false, true)] :=
  ⟨((predict_generators_unshuffled envA nnA).1 [0] true ([0], false, false, false)
      (by decide)).2.2.2.1,
   (predict_generators_unshuffled envA nnA).2.1 [0, 1]⟩

theorem runOp_preserves_init_weights (env : Env) (nn : Neural_Network) (op : Op) :
    (runOp env nn op).initialization_weights = nn.initialization_weights := by
  cases op with
  | trainOp s =>
    cases h : env.fit s nn.model.weights with
    | error e => simp [runOp, Neural_Network.train, h]
    | ok w2 => simp [runOp, Neural_Network.train, h]
  | evaluateOp t v =>
    cases h : env.fitEval t v nn.model.weights with
    | error e => simp [runOp, Neural_Network.evaluate, h]
    | ok wh => simp [runOp, Neural_Network.evaluate, h]
  | predictOp s d =>
    show (nn.predict env s d).2.1.initialization_weights = nn.initialization_weights
    unfold Neural_Network.predict
    rcases hq : predictLoop env nn.preprocessor s d with ⟨res, ppy, evy⟩
    cases res with
    | error e => rfl
    | ok vols => rfl
  | dumpOp p => rfl
  | loadOp p => rfl
  | resetOp => rfl

theorem runOps_preserves_init_weights (env : Env) (ops : List Op) :
    ∀ nn : Neural_Network,
      (runOps env nn ops).initialization_weights = nn.initialization_weights := by
  induction ops with
  | nil => intro nn; rfl
  | cons op rest ih =>
    intro nn
    show (runOps env (runOp env nn op) rest).initialization_weights =
      nn.initialization_weights
    rw [ih (runOp env nn op), runOp_preserves_init_weights]

/-- Claim C10: after any sequence of operations on a constructed Neural_Network,
reset_weights restores the model parameters to exactly the weights
captured at construction time; resetting twice equals resetting once; and
reset_weights changes no other field of the state. -/
theorem reset_weights_restores_construction (env : Env) (architecture : Architecture)
    (preprocessor : Preprocessor) (loss : Nat) (metrics : List Nat) (epochs : Nat)
    (learninig_rate : ℚ) (batch_queue_size : Nat) (gpu_number : Nat) (ops : List Op)
    (nn0 : Neural_Network)
    (h : Neural_Network.init architecture preprocessor loss metrics epochs
      learninig_rate batch_queue_size gpu_number = Except.ok nn0) :
    ((runOps env nn0 ops).reset_weights).model.weights = nn0.model.weights ∧
    ((runOps env nn0 ops).reset_weights).reset_weights =
      (runOps env nn0 ops).reset_weights ∧
    ((runOps env nn0 ops).reset_weights).model.arch = (runOps env nn0 ops).model.arch ∧
    ((runOps env nn0 ops).reset_weights).initialization_weights =
      (runOps env nn0 ops).initialization_weights ∧
    ((runOps env nn0 ops).reset_weights).preprocessor =
      (runOps env nn0 ops).preprocessor ∧
    ((runOps env nn0 ops).reset_weights).loss = (runOps env nn0 ops).loss ∧
    ((runOps env nn0 ops).reset_weights).metrics = (runOps env nn0 ops).metrics ∧
    ((runOps env nn0 ops).reset_weights).epochs = (runOps env nn0 ops).epochs ∧
    ((runOps env nn0 ops).reset_weights).learninig_rate =
      (runOps env nn0 ops).learninig_rate ∧
    ((runOps env nn0 ops).reset_weights).batch_queue_size =
      (runOps env nn0 ops).batch_queue_size ∧
    ((runOps env nn0 ops).reset_weights).shuffle_batches =
      (runOps env nn0 ops).shuffle_batches := by
  have hinit : nn0.initialization_weights = nn0.model.weights := by
    injection h with h2
    rw [← h2]
  refine ⟨?_, rfl, rfl, rfl, rfl, rfl, rfl, rfl, rfl, rfl, rfl⟩
  show (runOps env nn0 ops).initialization_weights = nn0.model.weights
  rw [runOps_preserves_init_weights, hinit]

/-- Claim C10 witness: after training and loading a different model, a reset
restores the construction-time weights. -/
theorem reset_weights_restores_construction_witness :
    ((runOps envA nnA [Op.trainOp [0], Op.loadOp ("m"), Op.resetOp]).reset_weights).model.weights
      = [2, 2] :=
  (reset_weights_restores_construction envA archA ppA 0 [] 20 (1 / 10000) 2 1
    [Op.trainOp [0], Op.loadOp ("m"), Op.resetOp] nnA rfl).1

end MIScnn
